import Mathlib

/-!
Shallow embedding of the Kant-image photo editor core (the layer store,
history manager, compositor and edit dispatcher of the React application).

The repository contains two divergent implementations of the editor:
a multi-layer compositing model (`src/unnamed/part_000`, embedded here as
namespace `LayerApp`) and a single-flat-image history model
(`src/unnamed/part_001`, embedded as namespace `FlatApp`).

External collaborators (the generative-image service, the canvas raster
primitive, object-URL management) are modelled as parameters:
 - each transform call is a value of type `Except String String`
   (an error message, or the produced image file);
 - image files are identified by `String`; the transient `objectUrl`
   display handle is derived 1-1 from the file and carries no extra
   state, so it is not modelled as a separate field;
 - the canvas context may be unavailable (`ctxOk : Bool`), and each
   image file has native dimensions given by an environment function.
-/

/-- The editing tabs of the application (`type Tab` in the source). -/
inductive Tab where
  | retouch
  | faceswap
  | adjust
  | filters
  | crop
  | removeBg
deriving DecidableEq

/-- A crop rectangle as produced by the crop widget (`Crop` values:
`x`, `y`, `width`, `height` are pixel floats, modelled as rationals). -/
structure CropRect where
  x : ℚ
  y : ℚ
  width : ℚ
  height : ℚ
deriving DecidableEq

/-- JavaScript `String.prototype.trim`: strips whitespace from both ends
(used by the retouch handler's `prompt.trim()` guard). -/
def jsTrim (s : String) : String :=
  String.mk (((s.toList.dropWhile Char.isWhitespace).reverse.dropWhile
    Char.isWhitespace).reverse)

/-- `dataURLtoFile` helper (identical in both implementations): splits the
data URL on commas, requires at least two parts, and extracts the MIME type
with the regex `/:(.*?);/`; a missing match or an empty capture throws.
On success the produced `File` is identified by the data URL itself. -/
def mimeCapture (cs : List Char) : Option (List Char) :=
  match cs.dropWhile (fun c => c ≠ ':') with
  | [] => none
  | _ :: rest =>
      if rest.contains ';' then
        let cap := rest.takeWhile (fun c => c ≠ ';')
        if cap.isEmpty then none else some cap
      else none

/-- See `mimeCapture`.  Models `dataURLtoFile` from the source. -/
def dataURLtoFile (dataurl : String) : Except String String :=
  let arr := dataurl.toList.splitOn ','
  if arr.length < 2 then .error "Invalid data URL"
  else
    match mimeCapture (arr.headD []) with
    | none => .error "Could not parse MIME type from data URL"
    | some _ => .ok dataurl

/-- `canvas.toDataURL` of the raster primitive: a canvas whose bitmap has
zero width or height (the `width`/`height` attributes are the floored
pixel sizes) yields the empty data URL `"data:,"`; otherwise an encoded
image whose payload is supplied by the environment. -/
def toDataURL (w h : ℚ) (payload : String) : String :=
  if w.floor ≤ 0 ∨ h.floor ≤ 0 then "data:,"
  else "data:image/png;base64," ++ payload

namespace LayerApp

/-- `interface Layer` of `src/unnamed/part_000` (the `objectUrl` display
handle, derived 1-1 from `file`, is omitted; see the file header). -/
structure Layer where
  id : String
  file : String
  name : String
  opacity : Nat
  isVisible : Bool
deriving DecidableEq

/-- The React state of the multi-layer `App` component that the layer
store, history manager and edit dispatcher read and write. -/
structure AppState where
  history : List (List Layer)
  historyIndex : Int
  layers : List Layer
  activeLayerId : Option String
  prompt : String
  additionalPrompt : String
  error : Option String
  successMessage : Option String
  editHotspot : Option (Int × Int)
  displayHotspot : Option (Int × Int)
  secondaryImage : Option String
  retouchScale : Nat
  crop : Option CropRect
  completedCrop : Option CropRect
  flattenedImageForCropUrl : Option String
  isLoading : Bool
  activeTab : Tab
deriving DecidableEq

/-- The state before any image is uploaded. -/
def initialState : AppState :=
  { history := [], historyIndex := -1, layers := [], activeLayerId := none,
    prompt := "", additionalPrompt := "", error := none, successMessage := none,
    editHotspot := none, displayHotspot := none, secondaryImage := none,
    retouchScale := 100, crop := none, completedCrop := none,
    flattenedImageForCropUrl := none, isLoading := false, activeTab := Tab.retouch }

/-- `activeLayer = layers.find(l => l.id === activeLayerId)`. -/
def activeLayer (s : AppState) : Option Layer :=
  s.layers.find? (fun l => s.activeLayerId = some l.id)

/-- `canUndo = historyIndex > 0`. -/
def canUndo (s : AppState) : Bool := s.historyIndex > 0

/-- `canRedo = historyIndex < history.length - 1`. -/
def canRedo (s : AppState) : Bool := s.historyIndex < (s.history.length : Int) - 1

/-- `commitChanges(newLayers, options)`: installs the new layer list, and
when `addToHistory` is set truncates the redo tail (`history.slice(0,
historyIndex + 1)`), appends the snapshot and moves the cursor to the new
last index; finally the transient editing state is reset (crop selection,
secondary image, additional prompt, retouch scale). -/
def commitChanges (newLayers : List Layer) (addToHistory : Bool) (s : AppState) :
    AppState :=
  let s1 := { s with layers := newLayers }
  let s2 :=
    if addToHistory then
      let newHistory := s1.history.take (s1.historyIndex + 1).toNat ++ [newLayers]
      { s1 with history := newHistory, historyIndex := (newHistory.length : Int) - 1 }
    else s1
  { s2 with crop := none, completedCrop := none, secondaryImage := none,
            additionalPrompt := "", retouchScale := 100 }

/-- The layer created by `handleImageUpload`. -/
def uploadLayer (id file : String) : Layer :=
  { id := id, file := file, name := "Background", opacity := 100, isVisible := true }

/-- `handleImageUpload(file)`: replaces the layer set and the history by the
single fresh background layer and points the cursor at it. -/
def handleImageUpload (id file : String) (s : AppState) : AppState :=
  let newLayer := uploadLayer id file
  { s with error := none, layers := [newLayer], activeLayerId := some newLayer.id,
           history := [[newLayer]], historyIndex := 0,
           successMessage := some "อัปโหลดรูปภาพสำเร็จแล้ว!",
           editHotspot := none, displayHotspot := none, activeTab := Tab.retouch }

/-- The state immediately after uploading one image into the empty editor. -/
def uploadState (id file : String) : AppState :=
  handleImageUpload id file initialState

/-- `handleAddLayer(file)`: falls back to an upload when no layer exists,
otherwise appends a fresh layer, commits, and makes it active. -/
def handleAddLayer (newId file : String) (s : AppState) : AppState :=
  if s.layers.length = 0 then handleImageUpload newId file s
  else
    let newLayer : Layer :=
      { id := newId, file := file, name := "Layer " ++ toString s.layers.length,
        opacity := 100, isVisible := true }
    let s1 := commitChanges (s.layers ++ [newLayer]) true s
    { s1 with activeLayerId := some newLayer.id }

/-- Replace the active layer's image file, as every successful transform
does (`layers.map(l => l.id === activeLayerId ? { ...l, file } : l)`). -/
def replaceActiveFile (newFile : String) (s : AppState) : List Layer :=
  s.layers.map (fun l => if s.activeLayerId = some l.id then { l with file := newFile } else l)

/-- `handleGenerate` (retouch): validates the active layer, the prompt text
and the hotspot; the external call is abstracted as `result`.  On success
the active layer's file is replaced, a snapshot is committed and the
retouch inputs (prompt, hotspot) are cleared; a thrown error is caught and
surfaced with the operation name. -/
def handleGenerate (result : Except String String) (s : AppState) : AppState :=
  match activeLayer s with
  | none => { s with error := some "ยังไม่ได้เลือกเลเยอร์เพื่อแก้ไข" }
  | some _ =>
    if jsTrim s.prompt = "" then
      { s with error := some "กรุณาใส่คำอธิบายการแก้ไขของคุณ" }
    else
      match s.editHotspot with
      | none => { s with error := some "กรุณาคลิกบนภาพเพื่อเลือกพื้นที่ที่ต้องการแก้ไข" }
      | some _ =>
        let s1 := { s with isLoading := true, error := none }
        match result with
        | .error msg =>
            { s1 with error := some ("สร้างรูปภาพไม่สำเร็จ " ++ msg), isLoading := false }
        | .ok newFile =>
            let s2 := commitChanges (replaceActiveFile newFile s1) true s1
            { s2 with prompt := "", editHotspot := none, displayHotspot := none,
                      isLoading := false }

/-- `handleApplyFilter(filterPrompt, additionalPrompt)`. -/
def handleApplyFilter (_filterPrompt _additionalPrompt : String)
    (result : Except String String) (s : AppState) : AppState :=
  match activeLayer s with
  | none => { s with error := some "ยังไม่ได้เลือกเลเยอร์เพื่อใช้ฟิลเตอร์" }
  | some _ =>
    let s1 := { s with isLoading := true, error := none }
    match result with
    | .error msg =>
        { s1 with error := some ("ใช้ฟิลเตอร์ไม่สำเร็จ " ++ msg), isLoading := false }
    | .ok newFile =>
        let s2 := commitChanges (replaceActiveFile newFile s1) true s1
        { s2 with isLoading := false }

/-- `handleApplyAdjustment(adjustmentPrompt, additionalPrompt)`. -/
def handleApplyAdjustment (_adjustmentPrompt _additionalPrompt : String)
    (result : Except String String) (s : AppState) : AppState :=
  match activeLayer s with
  | none => { s with error := some "ยังไม่ได้เลือกเลเยอร์เพื่อปรับแต่ง" }
  | some _ =>
    let s1 := { s with isLoading := true, error := none }
    match result with
    | .error msg =>
        { s1 with error := some ("ปรับแต่งไม่สำเร็จ " ++ msg), isLoading := false }
    | .ok newFile =>
        let s2 := commitChanges (replaceActiveFile newFile s1) true s1
        { s2 with isLoading := false }

/-- `handleApplyFaceSwap`: additionally requires the secondary image. -/
def handleApplyFaceSwap (result : Except String String) (s : AppState) : AppState :=
  if (activeLayer s).isSome ∧ s.secondaryImage.isSome then
    let s1 := { s with isLoading := true, error := none }
    match result with
    | .error msg =>
        { s1 with error := some ("สลับใบหน้าไม่สำเร็จ: " ++ msg), isLoading := false }
    | .ok newFile =>
        let s2 := commitChanges (replaceActiveFile newFile s1) true s1
        { s2 with isLoading := false }
  else
    { s with error := some "กรุณาเลือกเลเยอร์และอัปโหลดภาพเป้าหมายเพื่อทำการสลับใบหน้า" }

/-- `handleRemoveBackground(additionalPrompt)`. -/
def handleRemoveBackground (_additionalPrompt : String)
    (result : Except String String) (s : AppState) : AppState :=
  match activeLayer s with
  | none => { s with error := some "ยังไม่ได้เลือกเลเยอร์เพื่อลบพื้นหลัง" }
  | some _ =>
    let s1 := { s with isLoading := true, error := none }
    match result with
    | .error msg =>
        { s1 with error := some ("ลบพื้นหลังไม่สำเร็จ: " ++ msg), isLoading := false }
    | .ok newFile =>
        let s2 := commitChanges (replaceActiveFile newFile s1) true s1
        { s2 with isLoading := false }

/-- The flattened composite as a record of canvas work: dimensions taken
from the first visible layer's native size, and the ordered draw commands
`(image file, globalAlpha as opacity percent)` issued for the visible
layers, each stretched to the canvas size. -/
structure FlatImage where
  width : Nat
  height : Nat
  draws : List (String × Nat)
deriving DecidableEq

/-- `flattenLayersForCrop`: `null` when the layer list is empty, the 2d
context is unavailable, or no layer is visible; otherwise the composite of
the visible layers in stored order (invisible layers issue no draw call).
`dims` gives each image file's natural width and height.  (A failing image
load rejects the surrounding promise instead of returning; the happy path
of the loads is modelled.) -/
def flattenLayersForCrop (dims : String → Nat × Nat) (ctxOk : Bool)
    (layers : List Layer) : Option FlatImage :=
  if layers.length = 0 then none
  else if ¬ctxOk then none
  else
    match layers.find? (fun l => l.isVisible) with
    | none => none
    | some firstVisibleLayer =>
        some { width := (dims firstVisibleLayer.file).1,
               height := (dims firstVisibleLayer.file).2,
               draws := (layers.filter (fun l => l.isVisible)).map
                          (fun l => (l.file, l.opacity)) }

/-- `handleApplyCrop` of the multi-layer implementation: guards on a
completed crop, a flattened preview and an active layer; then crops the
flattened composite on a fresh canvas (`canvas.width/height` are the
scaled selection size), converts it to a file and commits a single layer
named "Cropped Image".  Any exception inside the `try` (an unavailable
context, or `dataURLtoFile` rejecting the canvas output) is caught. -/
def handleApplyCrop (naturalW naturalH dispW dispH : ℚ) (ctxOk : Bool)
    (payload : String) (s : AppState) : AppState :=
  match s.completedCrop, s.flattenedImageForCropUrl, activeLayer s with
  | some c, some _, some al =>
      let s1 := { s with isLoading := true, error := none }
      let scaleX := naturalW / dispW
      let scaleY := naturalH / dispH
      if ¬ctxOk then
        { s1 with error := some "ตัดภาพไม่สำเร็จ: Could not create canvas context",
                  isLoading := false }
      else
        let croppedDataUrl := toDataURL (c.width * scaleX) (c.height * scaleY) payload
        match dataURLtoFile croppedDataUrl with
        | .error msg =>
            { s1 with error := some ("ตัดภาพไม่สำเร็จ: " ++ msg), isLoading := false }
        | .ok newFile =>
            let newLayer := { al with file := newFile, name := "Cropped Image" }
            let s2 := commitChanges [newLayer] true s1
            { s2 with activeTab := Tab.retouch, isLoading := false }
  | _, _, _ => { s with error := some "กรุณาเลือกพื้นที่ก่อนทำการตัดภาพ" }

/-- `handleUndo`: a no-op unless `canUndo`; otherwise decrements the cursor
and republishes that snapshot as the layer set. -/
def handleUndo (s : AppState) : AppState :=
  if canUndo s then
    { s with historyIndex := s.historyIndex - 1,
             layers := s.history.getD (s.historyIndex - 1).toNat [] }
  else s

/-- `handleRedo`: symmetric at the tail end. -/
def handleRedo (s : AppState) : AppState :=
  if canRedo s then
    { s with historyIndex := s.historyIndex + 1,
             layers := s.history.getD (s.historyIndex + 1).toNat [] }
  else s

/-- `handleDeleteLayer(id)`: with layers remaining, reselects the topmost
remaining layer when the deleted one was active and commits; deleting the
last layer resets layers, history, cursor and active reference. -/
def handleDeleteLayer (id : String) (s : AppState) : AppState :=
  let newLayers := s.layers.filter (fun l => l.id ≠ id)
  if newLayers.length > 0 then
    let s1 :=
      if s.activeLayerId = some id then
        { s with activeLayerId := newLayers.getLast?.map (fun l => l.id) }
      else s
    commitChanges newLayers true s1
  else
    { s with layers := [], history := [], historyIndex := -1, activeLayerId := none }

/-- `handleReorderLayers(reordered)`. -/
def handleReorderLayers (reordered : List Layer) (s : AppState) : AppState :=
  commitChanges reordered true s

/-- `handleLayerOpacityChange(id, opacity)`: a live slider tick; commits
the adjusted layer list without adding to history. -/
def handleLayerOpacityChange (id : String) (opacity : Nat) (s : AppState) : AppState :=
  commitChanges (s.layers.map (fun l => if l.id = id then { l with opacity := opacity } else l))
    false s

/-- `commitOpacityChange`: pushes the current layer list as a snapshot
(truncating any redo tail) and moves the cursor to it. -/
def commitOpacityChange (s : AppState) : AppState :=
  let newHistory := s.history.take (s.historyIndex + 1).toNat ++ [s.layers]
  { s with history := newHistory, historyIndex := (newHistory.length : Int) - 1 }

/-- `handleLayerVisibilityChange(id)`: negates the named layer's visibility
and commits. -/
def handleLayerVisibilityChange (id : String) (s : AppState) : AppState :=
  commitChanges (s.layers.map (fun l => if l.id = id then { l with isVisible := !l.isVisible } else l))
    true s

/-- The five external transform operations of the edit dispatcher. -/
inductive EditOp where
  | retouch
  | filter
  | adjust
  | faceswap
  | removeBg
deriving DecidableEq

/-- The operation-specific validation carried out before the external call
(the guards at the top of each handler). -/
def opPrecondOk : EditOp → AppState → Bool
  | .retouch, s => (activeLayer s).isSome && !(jsTrim s.prompt = "") && s.editHotspot.isSome
  | .filter, s => (activeLayer s).isSome
  | .adjust, s => (activeLayer s).isSome
  | .faceswap, s => (activeLayer s).isSome && s.secondaryImage.isSome
  | .removeBg, s => (activeLayer s).isSome

/-- The user-facing failure message prefix of each operation's catch
branch (operation name, then the underlying message). -/
def opFailMsg : EditOp → String
  | .retouch => "สร้างรูปภาพไม่สำเร็จ "
  | .filter => "ใช้ฟิลเตอร์ไม่สำเร็จ "
  | .adjust => "ปรับแต่งไม่สำเร็จ "
  | .faceswap => "สลับใบหน้าไม่สำเร็จ: "
  | .removeBg => "ลบพื้นหลังไม่สำเร็จ: "

/-- Dispatch one edit operation to its handler (the two string arguments
are the operation's free-text inputs where it takes any). -/
def runEditOp : EditOp → String → String → Except String String → AppState → AppState
  | .retouch, _, _, r, s => handleGenerate r s
  | .filter, a, b, r, s => handleApplyFilter a b r s
  | .adjust, a, b, r, s => handleApplyAdjustment a b r s
  | .faceswap, _, _, r, s => handleApplyFaceSwap r s
  | .removeBg, _, b, r, s => handleRemoveBackground b r s

/-- The event alphabet the `LayerPanel` component can emit, one constructor
per callback prop it receives (`onLayerSelect`, `onLayerAdd`,
`onLayerDelete`, `onLayerReorder`, `onLayerOpacityChange`,
`onLayerVisibilityChange`); `commitOpacityChange` is not among the props
passed to `LayerPanel`, so no panel event reaches it. -/
inductive PanelEvent where
  | select (id : String)
  | add (newId file : String)
  | delete (id : String)
  | reorder (ls : List Layer)
  | opacityChange (id : String) (v : Nat)
  | visibilityToggle (id : String)

/-- How `App` reacts to each `LayerPanel` event (the wiring of the
`<LayerPanel .../>` element in `src/unnamed/part_000`). -/
def dispatchPanelEvent : PanelEvent → AppState → AppState
  | .select id, s => { s with activeLayerId := some id }
  | .add newId file, s => handleAddLayer newId file s
  | .delete id, s => handleDeleteLayer id s
  | .reorder ls, s => handleReorderLayers ls s
  | .opacityChange id v, s => handleLayerOpacityChange id v s
  | .visibilityToggle id, s => handleLayerVisibilityChange id s

/-- The events an opacity-slider drag emits, per `LayerPanel.tsx`: the
range input fires `onLayerOpacityChange` on every change and has no
mouse-up, pointer-up or drag-end handler, so releasing the slider emits
nothing further. -/
def sliderDrag (id : String) (vals : List Nat) : List PanelEvent :=
  vals.map (fun v => PanelEvent.opacityChange id v)

/-- Fold a list of panel events through the application state. -/
def runPanelEvents (evs : List PanelEvent) (s : AppState) : AppState :=
  evs.foldl (fun s e => dispatchPanelEvent e s) s

/-- Iterated `handleUndo`. -/
def undoIter : Nat → AppState → AppState
  | 0, s => s
  | n + 1, s => undoIter n (handleUndo s)

/-- A state is reachable when it arises from uploading an image into the
empty editor and then performing any sequence of committing operations
(every committed edit goes through `commitChanges` with `addToHistory`),
undo, redo, layer deletion, and opacity drags that end with the explicit
release commit.  A live opacity scrub without its release commit is
deliberately not a constructor: it is the one transition that leaves the
layer set out of sync with the history cursor. -/
inductive Reachable : AppState → Prop where
  | upload (id file : String) : Reachable (uploadState id file)
  | commit (ls : List Layer) {s : AppState} :
      Reachable s → Reachable (commitChanges ls true s)
  | undo {s : AppState} : Reachable s → Reachable (handleUndo s)
  | redo {s : AppState} : Reachable s → Reachable (handleRedo s)
  | deleteLayer (id : String) {s : AppState} :
      Reachable s → Reachable (handleDeleteLayer id s)
  | opacityRelease (id : String) (v : Nat) {s : AppState} :
      Reachable s → Reachable (commitOpacityChange (handleLayerOpacityChange id v s))

/-- The documented history-manager invariant: the active layer set is the
snapshot the cursor points at (for the empty editor both sides are empty). -/
def Inv (s : AppState) : Prop :=
  s.layers = s.history.getD s.historyIndex.toNat []

/-- One history transformation never rewrites a recorded snapshot in
place: every entry of the new history except possibly the appended last
one is the entry the old history had at the same position. -/
def snapshotsPreserved (h h' : List (List Layer)) : Prop :=
  ∀ i : Nat, i + 1 < h'.length → h'.get? i = h.get? i

/-- Invariant carried through a run of committed edits after an upload of
the layer `l0`: the history is nonempty, its first snapshot is the
uploaded one, the cursor sits on the last snapshot, and the layer set is
the snapshot under the cursor. -/
def GoodC1 (l0 : Layer) (s : AppState) : Prop :=
  0 < s.history.length ∧
  s.historyIndex = (s.history.length : Int) - 1 ∧
  s.history.head? = some [l0] ∧
  s.layers = s.history.getD s.historyIndex.toNat []

/-- A run of committed edits: each element is the layer list handed to
`commitChanges` by one successful editing operation. -/
def commitRun (edits : List (List Layer)) (s : AppState) : AppState :=
  edits.foldl (fun s ls => commitChanges ls true s) s

end LayerApp

namespace FlatApp

/-- The React state of the single-flat-image `App` of
`src/unnamed/part_001`: the history is a list of image files. -/
structure FlatState where
  history : List String
  historyIndex : Int
  error : Option String
  crop : Option CropRect
  completedCrop : Option CropRect
  secondaryImage : Option String
  additionalPrompt : String
  retouchScale : Int
  activeTab : Tab
deriving DecidableEq

/-- `currentImage = history[historyIndex] ?? null`. -/
def currentImage (s : FlatState) : Option String :=
  if s.historyIndex < 0 then none else s.history.get? s.historyIndex.toNat

/-- `canRedo = historyIndex < history.length - 1`. -/
def canRedo (s : FlatState) : Bool := s.historyIndex < (s.history.length : Int) - 1

/-- `addImageToHistory(newImageFile)`: truncates the redo tail, appends the
file, points the cursor at it, and resets the transient editing state. -/
def addImageToHistory (f : String) (s : FlatState) : FlatState :=
  let newHistory := s.history.take (s.historyIndex + 1).toNat ++ [f]
  { s with history := newHistory, historyIndex := (newHistory.length : Int) - 1,
           crop := none, completedCrop := none, secondaryImage := none,
           additionalPrompt := "", retouchScale := 100 }

/-- `handleApplyCrop` of the flat implementation: guards on a completed
crop, a mounted image element and a current image; computes the selection
scaled to native resolution and rejects a zero-width or zero-height
selection before creating the canvas; an unavailable context is also
rejected; otherwise the canvas blob (supplied by the raster primitive, or
`none` when encoding fails) is added to the history. -/
def handleApplyCrop (imgLoaded : Bool) (naturalW naturalH dispW dispH : ℚ)
    (ctxOk : Bool) (blob : Option String) (s : FlatState) : FlatState :=
  match s.completedCrop, imgLoaded, currentImage s with
  | some c, true, some _ =>
      let scaleX := naturalW / dispW
      let scaleY := naturalH / dispH
      let cropWidth := c.width * scaleX
      let cropHeight := c.height * scaleY
      if cropWidth = 0 ∨ cropHeight = 0 then
        { s with error := some "พื้นที่ที่เลือกตัดมีขนาดเล็กเกินไป" }
      else if ¬ctxOk then
        { s with error := some "ไม่สามารถสร้าง canvas สำหรับการตัดภาพได้" }
      else
        match blob with
        | some b => { addImageToHistory b s with activeTab := Tab.retouch }
        | none => s
  | _, _, _ => { s with error := some "กรุณาเลือกพื้นที่ที่จะตัดก่อน" }

end FlatApp

namespace LayerApp

/-- The per-layer function `handleLayerVisibilityChange` maps over the
layer list: the named layer's visibility flag is negated, every other
layer (and every other field) is untouched. -/
def toggleLayer (id : String) (l : Layer) : Layer :=
  if l.id = id then { l with isVisible := !l.isVisible } else l

end LayerApp

namespace LayerApp

theorem commitChanges_layers (ls : List Layer) (b : Bool) (s : AppState) :
    (commitChanges ls b s).layers = ls := by
  cases b <;> rfl

theorem commitChanges_true_history (ls : List Layer) (s : AppState) :
    (commitChanges ls true s).history =
      s.history.take (s.historyIndex + 1).toNat ++ [ls] := rfl

theorem commitChanges_true_index (ls : List Layer) (s : AppState) :
    (commitChanges ls true s).historyIndex =
      ((s.history.take (s.historyIndex + 1).toNat ++ [ls]).length : Int) - 1 := rfl

theorem commitChanges_transients (ls : List Layer) (b : Bool) (s : AppState) :
    (commitChanges ls b s).crop = none ∧
    (commitChanges ls b s).completedCrop = none ∧
    (commitChanges ls b s).secondaryImage = none ∧
    (commitChanges ls b s).additionalPrompt = "" ∧
    (commitChanges ls b s).retouchScale = 100 := by
  cases b <;> exact ⟨rfl, rfl, rfl, rfl, rfl⟩

theorem commitChanges_keeps (ls : List Layer) (b : Bool) (s : AppState) :
    (commitChanges ls b s).prompt = s.prompt ∧
    (commitChanges ls b s).editHotspot = s.editHotspot ∧
    (commitChanges ls b s).displayHotspot = s.displayHotspot ∧
    (commitChanges ls b s).activeLayerId = s.activeLayerId := by
  cases b <;> exact ⟨rfl, rfl, rfl, rfl⟩

theorem commitChanges_false_history (ls : List Layer) (s : AppState) :
    (commitChanges ls false s).history = s.history ∧
    (commitChanges ls false s).historyIndex = s.historyIndex := ⟨rfl, rfl⟩

theorem take_full_of_last {s : AppState}
    (hidx : s.historyIndex = (s.history.length : Int) - 1) (hlen : 0 < s.history.length) :
    s.history.take (s.historyIndex + 1).toNat = s.history := by
  have h : (s.historyIndex + 1).toNat = s.history.length := by omega
  rw [h, List.take_length]

theorem goodC1_upload (id file : String) :
    GoodC1 (uploadLayer id file) (uploadState id file) := by
  refine ⟨?_, ?_, ?_, ?_⟩ <;> simp [uploadState, handleImageUpload, initialState, GoodC1]

theorem goodC1_commit {l0 : Layer} {s : AppState} (h : GoodC1 l0 s) (ls : List Layer) :
    GoodC1 l0 (commitChanges ls true s) ∧
    (commitChanges ls true s).history.length = s.history.length + 1 := by
  obtain ⟨hlen, hidx, hhead, _⟩ := h
  have htake := take_full_of_last hidx hlen
  have hhist : (commitChanges ls true s).history = s.history ++ [ls] := by
    rw [commitChanges_true_history, htake]
  have hlen' : (commitChanges ls true s).history.length = s.history.length + 1 := by
    rw [hhist, List.length_append, List.length_singleton]
  refine ⟨⟨?_, ?_, ?_, ?_⟩, hlen'⟩
  · omega
  · rw [commitChanges_true_index, htake, hhist]
  · rw [hhist]
    obtain ⟨x, t, hx⟩ := List.exists_cons_of_ne_nil (List.ne_nil_of_length_pos hlen)
    rw [hx] at hhead ⊢
    simpa using hhead
  · rw [commitChanges_layers, hhist, commitChanges_true_index, htake]
    have h2 : (((s.history ++ [ls]).length : Int) - 1).toNat = s.history.length := by
      rw [List.length_append, List.length_singleton]; omega
    rw [h2]
    simp [List.getD, List.get?_concat_length]

theorem goodC1_commitRun (l0 : Layer) (edits : List (List Layer)) :
    ∀ s : AppState, GoodC1 l0 s →
      GoodC1 l0 (commitRun edits s) ∧
      (commitRun edits s).history.length = s.history.length + edits.length := by
  induction edits with
  | nil => intro s h; exact ⟨h, rfl⟩
  | cons e t ih =>
      intro s h
      obtain ⟨hg, hl⟩ := goodC1_commit h e
      obtain ⟨hg', hl'⟩ := ih _ hg
      have hre : commitRun (e :: t) s = commitRun t (commitChanges e true s) := rfl
      refine ⟨by rw [hre]; exact hg', ?_⟩
      rw [hre, hl', hl, List.length_cons]
      omega

theorem undoIter_spec : ∀ (n : Nat) (s : AppState),
    s.historyIndex = (n : Int) → n < s.history.length →
    s.layers = s.history.getD n [] →
    (undoIter n s).historyIndex = 0 ∧
    (undoIter n s).history = s.history ∧
    (undoIter n s).layers = s.history.getD 0 [] := by
  intro n
  induction n with
  | zero =>
      intro s h1 h2 h3
      exact ⟨by simpa using h1, rfl, h3⟩
  | succ k ih =>
      intro s h1 h2 h3
      have hc : canUndo s = true := by
        simp only [canUndo, decide_eq_true_eq, h1]
        positivity
      have hund : handleUndo s =
          { s with historyIndex := s.historyIndex - 1,
                   layers := s.history.getD (s.historyIndex - 1).toNat [] } := by
        unfold handleUndo
        rw [if_pos hc]
      have hidx' : (s.historyIndex - 1 : Int) = (k : Int) := by omega
      have htn : (s.historyIndex - 1 : Int).toNat = k := by omega
      have hstep : undoIter (k + 1) s = undoIter k (handleUndo s) := rfl
      rw [hstep, hund]
      have := ih { s with historyIndex := s.historyIndex - 1,
                          layers := s.history.getD (s.historyIndex - 1).toNat [] }
        (by simpa using hidx') (by simpa using Nat.lt_of_succ_lt h2) (by simp [htn])
      simpa using this

end LayerApp

namespace LayerApp

theorem getD_zero_of_head {l0 : Layer} {h : List (List Layer)}
    (hh : h.head? = some [l0]) : h.getD 0 [] = [l0] := by
  cases h with
  | nil => simp at hh
  | cons x t => simp at hh; simp [List.getD, hh]

/-- C1: starting from a single uploaded image, any run of N committed
edits followed by N undos leaves the active layer set equal to
`history[0]`, which is the originally uploaded single-layer set; in the
concrete instance one retouch commit yields 2 snapshots with the cursor
at 1, and one undo restores image A. -/
theorem undoN_restores_uploaded_image :
    (∀ (id file : String) (edits : List (List Layer)),
       (undoIter edits.length (commitRun edits (uploadState id file))).layers
           = (commitRun edits (uploadState id file)).history.getD 0 [] ∧
       (undoIter edits.length (commitRun edits (uploadState id file))).layers
           = [uploadLayer id file]) ∧
    ((handleGenerate (Except.ok "imgB")
        { uploadState "layer-1" "imgA" with
            prompt := "remove object",
            editHotspot := some (120, 80),
            displayHotspot := some (120, 80) }).history.length
        = 2 ∧
     (handleGenerate (Except.ok "imgB")
        { uploadState "layer-1" "imgA" with
            prompt := "remove object",
            editHotspot := some (120, 80),
            displayHotspot := some (120, 80) }).historyIndex
        = 1 ∧
     (handleUndo (handleGenerate (Except.ok "imgB")
        { uploadState "layer-1" "imgA" with
            prompt := "remove object",
            editHotspot := some (120, 80),
            displayHotspot := some (120, 80) })).layers
        = [uploadLayer "layer-1" "imgA"]) := by
  constructor
  · intro id file edits
    obtain ⟨⟨hlen, hidx, hhead, hlay⟩, hcount⟩ :=
      goodC1_commitRun (uploadLayer id file) edits (uploadState id file)
        (goodC1_upload id file)
    have hulen : (uploadState id file).history.length = 1 := rfl
    rw [hulen] at hcount
    have h1 : (commitRun edits (uploadState id file)).historyIndex = (edits.length : Int) := by
      omega
    have h3 : (commitRun edits (uploadState id file)).layers
        = (commitRun edits (uploadState id file)).history.getD edits.length [] := by
      rw [hlay]
      congr 1
      omega
    obtain ⟨hu1, hu2, hu3⟩ := undoIter_spec edits.length _ h1 (by omega) h3
    exact ⟨hu3, by rw [hu3, getD_zero_of_head hhead]⟩
  · exact ⟨by decide, by decide, by decide⟩

/-- C2: with the cursor strictly before the last snapshot, a new commit
truncates everything past the cursor, appends the snapshot, and moves the
cursor to the new last index, making redo unavailable; this holds for the
multi-layer `commitChanges` and for the flat `addImageToHistory` alike. -/
theorem commit_after_undo_discards_redo :
    (∀ (s : AppState) (ls : List Layer),
       0 ≤ s.historyIndex → s.historyIndex < (s.history.length : Int) - 1 →
       (commitChanges ls true s).history
           = s.history.take (s.historyIndex + 1).toNat ++ [ls] ∧
       (commitChanges ls true s).historyIndex = s.historyIndex + 1 ∧
       (commitChanges ls true s).historyIndex
           = ((commitChanges ls true s).history.length : Int) - 1 ∧
       canRedo (commitChanges ls true s) = false) ∧
    (∀ (s : FlatApp.FlatState) (f : String),
       0 ≤ s.historyIndex → s.historyIndex < (s.history.length : Int) - 1 →
       (FlatApp.addImageToHistory f s).history
           = s.history.take (s.historyIndex + 1).toNat ++ [f] ∧
       (FlatApp.addImageToHistory f s).historyIndex = s.historyIndex + 1 ∧
       FlatApp.canRedo (FlatApp.addImageToHistory f s) = false) := by
  constructor
  · intro s ls h0 h1
    have hmin : (s.historyIndex + 1).toNat ≤ s.history.length := by omega
    have hlen : (commitChanges ls true s).history.length
        = (s.historyIndex + 1).toNat + 1 := by
      rw [commitChanges_true_history, List.length_append, List.length_take,
          List.length_singleton, Nat.min_eq_left hmin]
    refine ⟨commitChanges_true_history ls s, ?_, ?_, ?_⟩
    · rw [commitChanges_true_index, List.length_append, List.length_take,
          List.length_singleton, Nat.min_eq_left hmin]
      omega
    · rw [commitChanges_true_index, commitChanges_true_history]
    · have hidx : (commitChanges ls true s).historyIndex
          = ((commitChanges ls true s).history.length : Int) - 1 := by
        rw [commitChanges_true_index, commitChanges_true_history]
      simp only [canRedo, decide_eq_false_iff_not, not_lt, hidx, le_refl]
  · intro s f h0 h1
    have hmin : (s.historyIndex + 1).toNat ≤ s.history.length := by omega
    have hh : (FlatApp.addImageToHistory f s).history
        = s.history.take (s.historyIndex + 1).toNat ++ [f] := rfl
    have hlen : (FlatApp.addImageToHistory f s).history.length
        = (s.historyIndex + 1).toNat + 1 := by
      rw [hh, List.length_append, List.length_take, List.length_singleton,
          Nat.min_eq_left hmin]
    have hidx : (FlatApp.addImageToHistory f s).historyIndex
        = ((FlatApp.addImageToHistory f s).history.length : Int) - 1 := by
      rfl
    refine ⟨hh, ?_, ?_⟩
    · rw [hidx, hlen]; omega
    · simp only [FlatApp.canRedo, decide_eq_false_iff_not, not_lt, hidx, le_refl]

/-- Witness for C2 at a two-snapshot history with the cursor on the first
snapshot (the state after one commit and one undo). -/
theorem commit_after_undo_discards_redo_witness :
    (0 : Int) ≤ (0 : Int) ∧
    ((0 : Int) < (([[uploadLayer "a" "A"], [uploadLayer "a" "B"]].length : Int) - 1)) ∧
    (commitChanges [uploadLayer "a" "C"] true
        { uploadState "a" "A" with
            history := [[uploadLayer "a" "A"], [uploadLayer "a" "B"]],
            historyIndex := 0 }).history
      = [[uploadLayer "a" "A"], [uploadLayer "a" "C"]] ∧
    canRedo (commitChanges [uploadLayer "a" "C"] true
        { uploadState "a" "A" with
            history := [[uploadLayer "a" "A"], [uploadLayer "a" "B"]],
            historyIndex := 0 }) = false := by
  have h := commit_after_undo_discards_redo.1
    { uploadState "a" "A" with
        history := [[uploadLayer "a" "A"], [uploadLayer "a" "B"]],
        historyIndex := 0 }
    [uploadLayer "a" "C"] (by decide) (by decide)
  exact ⟨by decide, by decide, by simpa using h.1, h.2.2.2⟩

end LayerApp

namespace LayerApp

/-- C3: for every editing operation whose validation passed, a rejected
external transform is caught: the only state changes are the user-facing
message (operation name followed by the underlying message) and the busy
flag returning to idle; layers, history and cursor are untouched (no
partial mutation). -/
theorem transform_failure_caught_no_mutation :
    ∀ (op : EditOp) (a b msg : String) (s : AppState),
      opPrecondOk op s = true →
      runEditOp op a b (Except.error msg) s
        = { s with error := some (opFailMsg op ++ msg), isLoading := false } := by
  intro op a b msg s hpre
  cases op with
  | retouch =>
      simp only [opPrecondOk, Bool.and_eq_true, Bool.not_eq_true', decide_eq_false_iff_not,
        Option.isSome_iff_exists] at hpre
      obtain ⟨⟨⟨al, hal⟩, hp⟩, h, hh⟩ := hpre
      simp only [runEditOp, handleGenerate, hal, hh, opFailMsg]
      rw [if_neg hp]
  | filter =>
      simp only [opPrecondOk, Option.isSome_iff_exists] at hpre
      obtain ⟨al, hal⟩ := hpre
      simp only [runEditOp, handleApplyFilter, hal, opFailMsg]
  | adjust =>
      simp only [opPrecondOk, Option.isSome_iff_exists] at hpre
      obtain ⟨al, hal⟩ := hpre
      simp only [runEditOp, handleApplyAdjustment, hal, opFailMsg]
  | faceswap =>
      simp only [opPrecondOk, Bool.and_eq_true] at hpre
      simp only [runEditOp, handleApplyFaceSwap, opFailMsg]
      rw [if_pos ⟨hpre.1, hpre.2⟩]
  | removeBg =>
      simp only [opPrecondOk, Option.isSome_iff_exists] at hpre
      obtain ⟨al, hal⟩ := hpre
      simp only [runEditOp, handleRemoveBackground, hal, opFailMsg]

/-- Witness for C3: the retouch operation at a ready-to-generate state
whose transform rejects with message "boom". -/
theorem transform_failure_caught_no_mutation_witness :
    opPrecondOk EditOp.retouch
      { uploadState "layer-1" "imgA" with
          prompt := "remove object",
          editHotspot := some (120, 80) } = true ∧
    runEditOp EditOp.retouch "" "" (Except.error "boom")
      { uploadState "layer-1" "imgA" with
          prompt := "remove object",
          editHotspot := some (120, 80) }
      = { uploadState "layer-1" "imgA" with
            prompt := "remove object",
            editHotspot := some (120, 80),
            error := some ("สร้างรูปภาพไม่สำเร็จ " ++ "boom"),
            isLoading := false } :=
  ⟨by decide, transform_failure_caught_no_mutation EditOp.retouch "" "" "boom" _ (by decide)⟩

end LayerApp

namespace LayerApp

theorem find?_filter_self {α : Type} (p : α → Bool) (l : List α) :
    (l.filter p).find? p = l.find? p := by
  induction l with
  | nil => rfl
  | cons x t ih =>
      by_cases hx : p x
      · simp [List.filter_cons, List.find?_cons, hx]
      · simp [List.filter_cons, List.find?_cons, hx, ih]

theorem filter_self_idem {α : Type} (p : α → Bool) (l : List α) :
    (l.filter p).filter p = l.filter p := by
  induction l with
  | nil => rfl
  | cons x t ih =>
      by_cases hx : p x <;> simp [List.filter_cons, hx, ih]

/-- C4: the compositor returns null when no layer is visible, and
invisible layers contribute nothing: flattening any layer list equals
flattening its visible sublist; in particular one fully-opaque visible
layer plus one invisible layer flatten exactly like the visible layer
alone. -/
theorem flatten_skips_invisible_layers :
    (∀ (dims : String → Nat × Nat) (ctxOk : Bool) (layers : List Layer),
       (∀ l ∈ layers, l.isVisible = false) →
       flattenLayersForCrop dims ctxOk layers = none) ∧
    (∀ (dims : String → Nat × Nat) (ctxOk : Bool) (layers : List Layer),
       flattenLayersForCrop dims ctxOk layers
         = flattenLayersForCrop dims ctxOk (layers.filter (fun l => l.isVisible))) ∧
    (∀ dims : String → Nat × Nat,
       flattenLayersForCrop dims true
           [{ id := "v", file := "F", name := "L1", opacity := 100, isVisible := true },
            { id := "h", file := "G", name := "L2", opacity := 70, isVisible := false }]
         = flattenLayersForCrop dims true
           [{ id := "v", file := "F", name := "L1", opacity := 100, isVisible := true }]) := by
  refine ⟨?_, ?_, ?_⟩
  · intro dims ctxOk layers hall
    have hfind : layers.find? (fun l => l.isVisible) = none := by
      rw [List.find?_eq_none]
      intro x hx
      simp [hall x hx]
    unfold flattenLayersForCrop
    rw [hfind]
    split_ifs <;> rfl
  · intro dims ctxOk layers
    unfold flattenLayersForCrop
    rcases hfind : layers.find? (fun l => l.isVisible) with _ | fv
    · have hnil : layers.filter (fun l => l.isVisible) = [] := by
        rw [List.filter_eq_nil]
        intro a ha
        have := List.find?_eq_none.mp hfind a ha
        simpa using this
      rw [hfind, hnil]
      split_ifs <;> rfl
    · have hmem : fv ∈ layers.filter (fun l => l.isVisible) :=
        List.mem_filter.mpr ⟨List.mem_of_find?_eq_some hfind, List.find?_some hfind⟩
      have hne : layers.filter (fun l => l.isVisible) ≠ [] := by
        intro h
        rw [h] at hmem
        exact absurd hmem (List.not_mem_nil fv)
      have hlne : layers ≠ [] := by
        intro h
        rw [h] at hfind
        exact Option.noConfusion hfind
      have hfind2 : (layers.filter (fun l => l.isVisible)).find? (fun l => l.isVisible)
          = some fv := by
        rw [find?_filter_self, hfind]
      have h1 : ¬(layers.length = 0) := by simpa [List.length_eq_zero] using hlne
      have h2 : ¬((layers.filter (fun l => l.isVisible)).length = 0) := by
        simpa [List.length_eq_zero] using hne
      rw [hfind, hfind2, filter_self_idem, if_neg h1, if_neg h2]
  · intro dims
    rfl

/-- Witness for C4's all-invisible hypothesis: a single hidden layer
flattens to null. -/
theorem flatten_skips_invisible_layers_witness :
    (∀ l ∈ [({ id := "h", file := "G", name := "L2", opacity := 70,
               isVisible := false } : Layer)], l.isVisible = false) ∧
    flattenLayersForCrop (fun _ => (4, 3)) true
        [{ id := "h", file := "G", name := "L2", opacity := 70, isVisible := false }]
      = none :=
  ⟨by decide, flatten_skips_invisible_layers.1 (fun _ => (4, 3)) true
      [{ id := "h", file := "G", name := "L2", opacity := 70, isVisible := false }]
      (by decide)⟩

end LayerApp

namespace LayerApp

theorem inv_commit (ls : List Layer) (s : AppState) : Inv (commitChanges ls true s) := by
  unfold Inv
  rw [commitChanges_layers, commitChanges_true_history, commitChanges_true_index]
  have h : ((((s.history.take (s.historyIndex + 1).toNat ++ [ls]).length : Int)) - 1).toNat
      = (s.history.take (s.historyIndex + 1).toNat).length := by
    rw [List.length_append, List.length_singleton]
    omega
  rw [h]
  simp [List.getD, List.get?_concat_length]

theorem inv_commitOpacity (s : AppState) : Inv (commitOpacityChange s) := by
  unfold Inv commitOpacityChange
  simp only
  have h : ((((s.history.take (s.historyIndex + 1).toNat ++ [s.layers]).length : Int)) - 1).toNat
      = (s.history.take (s.historyIndex + 1).toNat).length := by
    rw [List.length_append, List.length_singleton]
    omega
  rw [h]
  simp [List.getD, List.get?_concat_length]

theorem inv_undo {s : AppState} (h : Inv s) : Inv (handleUndo s) := by
  unfold handleUndo
  by_cases hc : canUndo s = true
  · rw [if_pos hc]; rfl
  · rw [if_neg hc]; exact h

theorem inv_redo {s : AppState} (h : Inv s) : Inv (handleRedo s) := by
  unfold handleRedo
  by_cases hc : canRedo s = true
  · rw [if_pos hc]; rfl
  · rw [if_neg hc]; exact h

theorem inv_upload (id file : String) (s : AppState) :
    Inv (handleImageUpload id file s) := rfl

theorem inv_delete (id : String) {s : AppState} (h : Inv s) :
    Inv (handleDeleteLayer id s) := by
  unfold handleDeleteLayer
  by_cases hc : (s.layers.filter (fun l => l.id ≠ id)).length > 0
  · rw [if_pos hc]
    by_cases ha : s.activeLayerId = some id
    · rw [if_pos ha]; exact inv_commit _ _
    · rw [if_neg ha]; exact inv_commit _ _
  · rw [if_neg hc]; rfl

theorem sp_append (h : List (List Layer)) (k : Nat) (ls : List Layer) :
    snapshotsPreserved h (h.take k ++ [ls]) := by
  intro i hi
  rw [List.length_append, List.length_singleton] at hi
  have hik : i < (h.take k).length := by omega
  rw [List.get?_append hik]
  have : i < k := by
    rw [List.length_take] at hik
    omega
  exact List.get?_take this

theorem sp_refl (h : List (List Layer)) : snapshotsPreserved h h := by
  intro i _
  rfl

theorem sp_commit (s : AppState) (ls : List Layer) (b : Bool) :
    snapshotsPreserved s.history (commitChanges ls b s).history := by
  cases b
  · exact sp_refl s.history
  · rw [commitChanges_true_history]
    exact sp_append s.history _ ls

theorem sp_delete (s : AppState) (id : String) :
    snapshotsPreserved s.history (handleDeleteLayer id s).history := by
  unfold handleDeleteLayer
  by_cases hc : (s.layers.filter (fun l => l.id ≠ id)).length > 0
  · rw [if_pos hc]
    by_cases ha : s.activeLayerId = some id
    · rw [if_pos ha]; exact sp_commit _ _ _
    · rw [if_neg ha]; exact sp_commit _ _ _
  · rw [if_neg hc]
    intro i hi
    simp at hi

theorem sp_undo (s : AppState) :
    snapshotsPreserved s.history (handleUndo s).history := by
  unfold handleUndo
  by_cases hc : canUndo s = true
  · rw [if_pos hc]; exact sp_refl s.history
  · rw [if_neg hc]; exact sp_refl s.history

theorem sp_redo (s : AppState) :
    snapshotsPreserved s.history (handleRedo s).history := by
  unfold handleRedo
  by_cases hc : canRedo s = true
  · rw [if_pos hc]; exact sp_refl s.history
  · rw [if_neg hc]; exact sp_refl s.history

theorem sp_opacityRelease (s : AppState) :
    snapshotsPreserved s.history (commitOpacityChange s).history := by
  unfold commitOpacityChange
  exact sp_append s.history _ s.layers

theorem sp_upload (id file : String) (s : AppState) :
    snapshotsPreserved s.history (handleImageUpload id file s).history := by
  intro i hi
  simp [handleImageUpload] at hi

/-- C5 (amended): at every state reachable by upload, committed edits
(including reorder, visibility toggles, crop and add-layer, which all go
through `commitChanges` with `addToHistory`), undo, redo, layer deletion,
and opacity drags closed by the explicit release commit, the active layer
set equals `history[cursor]`; and no operation ever rewrites a recorded
snapshot in place — each step preserves every surviving history entry
except the one it may append.  (A live opacity scrub without its release
commit is excluded: it is the one step that transiently breaks the
cursor equality, as the counterexample shows.) -/
theorem active_state_matches_cursor :
    (∀ s : AppState, Reachable s → Inv s) ∧
    (∀ (s : AppState) (ls : List Layer) (b : Bool),
       snapshotsPreserved s.history (commitChanges ls b s).history) ∧
    (∀ s : AppState, snapshotsPreserved s.history (handleUndo s).history) ∧
    (∀ s : AppState, snapshotsPreserved s.history (handleRedo s).history) ∧
    (∀ (s : AppState) (id : String),
       snapshotsPreserved s.history (handleDeleteLayer id s).history) ∧
    (∀ (s : AppState) (id : String) (v : Nat),
       snapshotsPreserved s.history (handleLayerOpacityChange id v s).history) ∧
    (∀ s : AppState, snapshotsPreserved s.history (commitOpacityChange s).history) ∧
    (∀ (id file : String) (s : AppState),
       snapshotsPreserved s.history (handleImageUpload id file s).history) := by
  refine ⟨?_, sp_commit, sp_undo, sp_redo, sp_delete,
          fun s id v => sp_commit s _ false, sp_opacityRelease, sp_upload⟩
  intro s h
  induction h with
  | upload id file => exact inv_upload id file initialState
  | commit ls _ ih => exact inv_commit ls _
  | undo _ ih => exact inv_undo ih
  | redo _ ih => exact inv_redo ih
  | deleteLayer id _ ih => exact inv_delete id ih
  | opacityRelease id v _ _ => exact inv_commitOpacity _

/-- Witness for C5: the freshly uploaded state satisfies the cursor
invariant, and an undo step there preserves all recorded snapshots. -/
theorem active_state_matches_cursor_witness :
    Inv (uploadState "layer-1" "imgA") ∧
    snapshotsPreserved (uploadState "layer-1" "imgA").history
      (handleUndo (uploadState "layer-1" "imgA")).history :=
  ⟨active_state_matches_cursor.1 _ (Reachable.upload "layer-1" "imgA"),
   active_state_matches_cursor.2.2.1 _⟩

/-- C5 counterexample: a live opacity scrub (layer-store `setOpacity`
before any release commit) leaves the active layer set different from
`history[cursor]`, so the invariant does not hold at every point reachable
by the operations when the opacity change is included as stated. -/
theorem active_state_matches_cursor_cex :
    ¬ Inv (handleLayerOpacityChange "layer-1" 50 (uploadState "layer-1" "imgA")) := by
  unfold Inv
  decide

end LayerApp

namespace LayerApp

/-- C6 counterexample: applying a filter at a state with a selected
hotspot commits a snapshot (the history grows to 2) yet leaves the hotspot
set, so the commit does not clear the hotspot as the claim states. -/
theorem commit_clears_transients_cex :
    (handleApplyFilter "vintage" "" (Except.ok "imgB")
        { uploadState "layer-1" "imgA" with
            editHotspot := some (120, 80) }).history.length = 2 ∧
    (handleApplyFilter "vintage" "" (Except.ok "imgB")
        { uploadState "layer-1" "imgA" with
            editHotspot := some (120, 80) }).editHotspot = some (120, 80) :=
  ⟨by decide, by decide⟩

/-- C6 (amended): every commit clears the crop selection, the secondary
reference image and the auxiliary free-text input and resets the scale
factor to 100%, but it leaves the retouch hotspot and the main prompt
text unchanged; those two are cleared only by the retouch operation's
own success path. -/
theorem commit_resets_transient_state :
    (∀ (ls : List Layer) (b : Bool) (s : AppState),
       (commitChanges ls b s).crop = none ∧
       (commitChanges ls b s).completedCrop = none ∧
       (commitChanges ls b s).secondaryImage = none ∧
       (commitChanges ls b s).additionalPrompt = "" ∧
       (commitChanges ls b s).retouchScale = 100 ∧
       (commitChanges ls b s).editHotspot = s.editHotspot ∧
       (commitChanges ls b s).prompt = s.prompt) ∧
    (∀ (f : String) (s : AppState),
       opPrecondOk EditOp.retouch s = true →
       (handleGenerate (Except.ok f) s).editHotspot = none ∧
       (handleGenerate (Except.ok f) s).prompt = "") := by
  constructor
  · intro ls b s
    obtain ⟨h1, h2, h3, h4, h5⟩ := commitChanges_transients ls b s
    obtain ⟨k1, k2, _, _⟩ := commitChanges_keeps ls b s
    exact ⟨h1, h2, h3, h4, h5, k2, k1⟩
  · intro f s hpre
    simp only [opPrecondOk, Bool.and_eq_true, Bool.not_eq_true', decide_eq_false_iff_not,
      Option.isSome_iff_exists] at hpre
    obtain ⟨⟨⟨al, hal⟩, hp⟩, h, hh⟩ := hpre
    simp only [handleGenerate, hal, hh]
    rw [if_neg hp]
    exact ⟨rfl, rfl⟩

/-- Witness for C6's amended retouch clause: a successful retouch at a
ready state clears the hotspot. -/
theorem commit_resets_transient_state_witness :
    opPrecondOk EditOp.retouch
      { uploadState "layer-1" "imgA" with
          prompt := "remove object",
          editHotspot := some (120, 80) } = true ∧
    (handleGenerate (Except.ok "imgB")
      { uploadState "layer-1" "imgA" with
          prompt := "remove object",
          editHotspot := some (120, 80) }).editHotspot = none :=
  ⟨by decide, (commit_resets_transient_state.2 "imgB" _ (by decide)).1⟩

/-- C7: the slider of `LayerPanel` emits only `onLayerOpacityChange`
events and has no release handler, and `commitOpacityChange` is never
passed to the panel; so after dragging the uploaded layer's opacity to 50
and releasing, the layer set holds the new opacity while the history still
holds only the upload snapshot — no snapshot records the final opacity. -/
theorem opacity_release_commit_never_fires :
    (runPanelEvents (sliderDrag "layer-1" [80, 50]) (uploadState "layer-1" "imgA")).layers
        = [{ uploadLayer "layer-1" "imgA" with opacity := 50 }] ∧
    (runPanelEvents (sliderDrag "layer-1" [80, 50]) (uploadState "layer-1" "imgA")).history
        = [[uploadLayer "layer-1" "imgA"]] ∧
    (runPanelEvents (sliderDrag "layer-1" [80, 50]) (uploadState "layer-1" "imgA")).historyIndex
        = 0 :=
  ⟨by decide, by decide, by decide⟩

end LayerApp

namespace LayerApp

/-- C8: a crop whose selection rectangle has zero width commits nothing.
In the flat implementation the scaled width is zero, the explicit
validation fires, and the state is unchanged except for the message; in
the multi-layer implementation the zero-width selection produces a
zero-sized canvas whose data URL has no MIME type, `dataURLtoFile` throws,
the error is caught, and layers, history and cursor are unchanged. -/
theorem zero_width_crop_rejected :
    (∀ (s : FlatApp.FlatState) (c : CropRect) (nW nH dW dH : ℚ) (ctxOk : Bool)
        (blob : Option String),
       s.completedCrop = some c → c.width = 0 → (FlatApp.currentImage s).isSome →
       FlatApp.handleApplyCrop true nW nH dW dH ctxOk blob s
         = { s with error := some "พื้นที่ที่เลือกตัดมีขนาดเล็กเกินไป" }) ∧
    (∀ (s : AppState) (c : CropRect) (nW nH dW dH : ℚ) (payload : String),
       s.completedCrop = some c → c.width = 0 →
       s.flattenedImageForCropUrl.isSome → (activeLayer s).isSome →
       (handleApplyCrop nW nH dW dH true payload s).layers = s.layers ∧
       (handleApplyCrop nW nH dW dH true payload s).history = s.history ∧
       (handleApplyCrop nW nH dW dH true payload s).historyIndex = s.historyIndex ∧
       (handleApplyCrop nW nH dW dH true payload s).error
         = some ("ตัดภาพไม่สำเร็จ: " ++ "Could not parse MIME type from data URL")) := by
  constructor
  · intro s c nW nH dW dH ctxOk blob hc hcw hcur
    obtain ⟨f, hf⟩ := Option.isSome_iff_exists.mp hcur
    simp only [FlatApp.handleApplyCrop, hc, hf]
    rw [hcw, zero_mul]
    rw [if_pos (Or.inl rfl)]
  · intro s c nW nH dW dH payload hc hcw hfl hal
    obtain ⟨fl, hfl'⟩ := Option.isSome_iff_exists.mp hfl
    obtain ⟨al, hal'⟩ := Option.isSome_iff_exists.mp hal
    have ht : toDataURL (c.width * (nW / dW)) (c.height * (nH / dH)) payload
        = "data:," := by
      rw [hcw, zero_mul]
      unfold toDataURL
      split_ifs with hsp
      · rfl
      · exact absurd (Or.inl (by decide)) hsp
    have hfile : dataURLtoFile "data:,"
        = Except.error "Could not parse MIME type from data URL" := rfl
    simp only [handleApplyCrop, hc, hfl', hal', ht, hfile, not_true, if_false]
    simp

/-- Witness for C8: a zero-width selection at concrete states of both
implementations. -/
theorem zero_width_crop_rejected_witness :
    (FlatApp.handleApplyCrop true 10 10 5 5 true (some "blob")
        { history := ["imgA"], historyIndex := 0, error := none, crop := none,
          completedCrop := some { x := 1, y := 1, width := 0, height := 4 },
          secondaryImage := none, additionalPrompt := "", retouchScale := 100,
          activeTab := Tab.crop }
      = { history := ["imgA"], historyIndex := 0,
          error := some "พื้นที่ที่เลือกตัดมีขนาดเล็กเกินไป", crop := none,
          completedCrop := some { x := 1, y := 1, width := 0, height := 4 },
          secondaryImage := none, additionalPrompt := "", retouchScale := 100,
          activeTab := Tab.crop }) ∧
    ((handleApplyCrop 10 10 5 5 true "payload"
        { uploadState "layer-1" "imgA" with
            completedCrop := some { x := 1, y := 1, width := 0, height := 4 },
            flattenedImageForCropUrl := some "flat" }).history
      = [[uploadLayer "layer-1" "imgA"]]) :=
  ⟨by
    have h := zero_width_crop_rejected.1
      { history := ["imgA"], historyIndex := 0, error := none, crop := none,
        completedCrop := some { x := 1, y := 1, width := 0, height := 4 },
        secondaryImage := none, additionalPrompt := "", retouchScale := 100,
        activeTab := Tab.crop }
      { x := 1, y := 1, width := 0, height := 4 } 10 10 5 5 true (some "blob")
      rfl rfl (by decide)
    exact h,
   by
    have h := (zero_width_crop_rejected.2
      { uploadState "layer-1" "imgA" with
          completedCrop := some { x := 1, y := 1, width := 0, height := 4 },
          flattenedImageForCropUrl := some "flat" }
      { x := 1, y := 1, width := 0, height := 4 } 10 10 5 5 "payload"
      rfl rfl (by decide) (by decide)).2.1
    rw [h]
    decide⟩

end LayerApp

namespace LayerApp

/-- C9 counterexample: with three layers (bottom "a", middle "b", top
"c") and "a" active, deleting the non-active layer "b" keeps "a" active;
the topmost remaining layer is "c", so the claim that `remove(id)` always
selects the topmost remaining layer as active is false. -/
theorem remove_layer_cex :
    ((handleDeleteLayer "b"
        (runPanelEvents
          [PanelEvent.add "b" "fb", PanelEvent.add "c" "fc", PanelEvent.select "a"]
          (uploadState "a" "fa"))).activeLayerId = some "a") ∧
    ((handleDeleteLayer "b"
        (runPanelEvents
          [PanelEvent.add "b" "fb", PanelEvent.add "c" "fc", PanelEvent.select "a"]
          (uploadState "a" "fa"))).layers.map (fun l => l.id) = ["a", "c"]) ∧
    ((handleDeleteLayer "b"
        (runPanelEvents
          [PanelEvent.add "b" "fb", PanelEvent.add "c" "fc", PanelEvent.select "a"]
          (uploadState "a" "fa"))).layers.getLast?.map (fun l => l.id) = some "c") ∧
    some "a" ≠ some "c" :=
  ⟨by decide, by decide, by decide, by decide⟩

/-- C9 (amended): deleting the only layer (whose id is the deleted one)
resets layers, history, active reference and sets the cursor to the -1
sentinel; deleting with other layers remaining removes the layer and
commits the result, and it selects the topmost remaining layer as active
only when the deleted layer was the active one — otherwise the active
layer is unchanged. -/
theorem remove_layer_behaviour :
    (∀ (s : AppState) (l : Layer), s.layers = [l] →
       handleDeleteLayer l.id s
         = { s with layers := [], history := [], historyIndex := -1,
                    activeLayerId := none }) ∧
    (∀ (s : AppState) (id : String),
       s.layers.filter (fun l => l.id ≠ id) ≠ [] →
       (handleDeleteLayer id s).layers = s.layers.filter (fun l => l.id ≠ id) ∧
       (handleDeleteLayer id s).history
         = s.history.take (s.historyIndex + 1).toNat
             ++ [s.layers.filter (fun l => l.id ≠ id)] ∧
       (handleDeleteLayer id s).activeLayerId
         = (if s.activeLayerId = some id
            then (s.layers.filter (fun l => l.id ≠ id)).getLast?.map (fun l => l.id)
            else s.activeLayerId)) := by
  constructor
  · intro s l hs
    unfold handleDeleteLayer
    rw [hs]
    simp
  · intro s id hne
    have hlen : (s.layers.filter (fun l => l.id ≠ id)).length > 0 :=
      List.length_pos.mpr hne
    unfold handleDeleteLayer
    rw [if_pos hlen]
    by_cases ha : s.activeLayerId = some id
    · rw [if_pos ha, if_pos ha]
      refine ⟨commitChanges_layers _ _ _, ?_, ?_⟩
      · rw [commitChanges_true_history]
      · exact (commitChanges_keeps _ _ _).2.2.2
    · rw [if_neg ha, if_neg ha]
      refine ⟨commitChanges_layers _ _ _, ?_, ?_⟩
      · rw [commitChanges_true_history]
      · exact (commitChanges_keeps _ _ _).2.2.2

/-- Witness for C9: deleting the only uploaded layer resets everything,
and deleting the active topmost of two layers reselects the remaining
one. -/
theorem remove_layer_behaviour_witness :
    ((uploadState "layer-1" "imgA").layers = [uploadLayer "layer-1" "imgA"]) ∧
    (handleDeleteLayer "layer-1" (uploadState "layer-1" "imgA")
      = { uploadState "layer-1" "imgA" with
            layers := [], history := [], historyIndex := -1,
            activeLayerId := none }) ∧
    ((handleDeleteLayer "b"
        (runPanelEvents [PanelEvent.add "b" "fb"] (uploadState "a" "fa"))).layers
      = [uploadLayer "a" "fa"]) :=
  ⟨by decide,
   remove_layer_behaviour.1 (uploadState "layer-1" "imgA")
     (uploadLayer "layer-1" "imgA") (by decide),
   by
    have h := (remove_layer_behaviour.2
      (runPanelEvents [PanelEvent.add "b" "fb"] (uploadState "a" "fa")) "b"
      (by decide)).1
    rw [h]
    decide⟩

/-- C10: toggling a layer's visibility is a committed, undoable edit:
with the id present and the cursor in range, the handler truncates the
redo tail, appends a snapshot equal to the current layer set with exactly
the named layer's visibility negated (all other fields of every layer
unchanged), and advances the cursor by one. -/
theorem visibility_toggle_commits :
    ∀ (s : AppState) (id : String),
      (∃ l ∈ s.layers, l.id = id) →
      -1 ≤ s.historyIndex → s.historyIndex < (s.history.length : Int) →
      (handleLayerVisibilityChange id s).layers = s.layers.map (toggleLayer id) ∧
      (handleLayerVisibilityChange id s).history
          = s.history.take (s.historyIndex + 1).toNat
              ++ [s.layers.map (toggleLayer id)] ∧
      (handleLayerVisibilityChange id s).historyIndex = s.historyIndex + 1 ∧
      (∀ l : Layer, (toggleLayer id l).id = l.id ∧ (toggleLayer id l).file = l.file ∧
          (toggleLayer id l).name = l.name ∧ (toggleLayer id l).opacity = l.opacity) ∧
      (∀ l : Layer, l.id = id → (toggleLayer id l).isVisible = !l.isVisible) ∧
      (∀ l : Layer, l.id ≠ id → toggleLayer id l = l) := by
  intro s id _ h0 h1
  have hmin : (s.historyIndex + 1).toNat ≤ s.history.length := by omega
  refine ⟨commitChanges_layers _ _ _, commitChanges_true_history _ _, ?_, ?_, ?_, ?_⟩
  · show (commitChanges (s.layers.map (toggleLayer id)) true s).historyIndex
        = s.historyIndex + 1
    rw [commitChanges_true_index, List.length_append, List.length_take,
        List.length_singleton, Nat.min_eq_left hmin]
    omega
  · intro l
    unfold toggleLayer
    by_cases hl : l.id = id <;> simp [hl]
  · intro l hl
    unfold toggleLayer
    rw [if_pos hl]
  · intro l hl
    unfold toggleLayer
    rw [if_neg hl]

/-- Witness for C10: toggling the uploaded background layer's visibility
appends the toggled snapshot and moves the cursor to 1. -/
theorem visibility_toggle_commits_witness :
    (∃ l ∈ (uploadState "layer-1" "imgA").layers, l.id = "layer-1") ∧
    (handleLayerVisibilityChange "layer-1" (uploadState "layer-1" "imgA")).historyIndex
      = 0 + 1 :=
  ⟨by decide,
   by
    have h := (visibility_toggle_commits (uploadState "layer-1" "imgA") "layer-1"
      (by decide) (by decide) (by decide)).2.2.1
    simpa using h⟩

end LayerApp
